import Mathlib

/-!
# Verification of the questionnaire-scale calculation and validation core

Shallow embedding of the calculation port (serial and concurrent adapters),
the formula-type mapping, the handler chain, the validation loops and the
questionnaire question service, translated from the Go sources in
`docs/evaluation-server/02-消息处理模块设计与实现.md`,
`docs/collection-server/02-校验模块设计与实现.md` and
`docs/apiserver/01-问卷&答卷的设计与实现.md`.

Go `float64` operands are embedded as `ℚ`; Go pointers as `Option`; Go
`error` returns as `Except String` or `Option String`; the wall clock as an
explicit `Int` parameter that only the duration field may consume; the
nondeterministic completion order of a worker pool as an explicit list of
task indices (hypothesised to be a permutation of the task range).
-/

namespace QScale

/-- Values carried in Go `map[string]interface{}` / `any` positions. -/
inductive GoValue where
  | str (s : String)
  | num (q : ℚ)
  | floats (l : List ℚ)
  | strs (l : List String)
  | nil
  deriving DecidableEq

/-- Go `map[string]interface{}`, embedded as an association list. -/
abbrev Params := List (String × GoValue)

/-- Structure `CalculationRequest` from the calculation-port shared data structures. -/
structure CalculationRequest where
  id : String
  name : String
  formulaType : String
  operands : List ℚ
  parameters : Params
  precision : Int
  roundingMode : String
  deriving DecidableEq

/-- Details record produced by a strategy execution
(`strategies.CalculationResult` in the Go source). -/
structure StrategyDetails where
  strategyName : String
  rawValue : ℚ
  operandCount : Nat
  deriving DecidableEq

/-- Structure `CalculationResult` from the calculation-port shared data structures. -/
structure CalculationResult where
  id : String
  name : String
  value : ℚ
  details : Option StrategyDetails
  error : String
  duration : Int
  deriving DecidableEq

/-- The zero `CalculationResult`, used only as a `getD` default. -/
def defaultCalculationResult : CalculationResult :=
  { id := "", name := "", value := 0, details := none, error := "", duration := 0 }

/-- Function `mapFormulaTypeToStrategy` — maps a request formula type to the strategy
name, falling back to "option" on unrecognized input. -/
def mapFormulaTypeToStrategy (formulaType : String) : String :=
  match formulaType with
  | "the_option" | "score" | "option" => "option"
  | "sum" => "sum"
  | "average" | "avg" => "average"
  | "max" | "maximum" => "max"
  | "min" | "minimum" => "min"
  | "weighted" | "weighted_average" => "weighted"
  | _ => "option"

/-- The formula-type strings recognized by `mapFormulaTypeToStrategy`. -/
def recognizedFormulaTypes : List String :=
  ["the_option", "score", "option", "sum", "average", "avg",
   "max", "maximum", "min", "minimum", "weighted", "weighted_average"]

/-! ## Calculation rule and engine

The `rules` and `calculation` packages are referenced but not printed in the
repository docs; they are modelled from the spec (§3, §4.1, §4.2). -/

/-- Modelled from the spec: `rules.CalculationRule` (§3) — the engine-internal
rule value object {strategyName, precision, roundingMode, params}; its Go
source is absent from the repository snapshot. -/
structure CalculationRule where
  strategyName : String
  precision : Int
  roundingMode : String
  params : Params
  deriving DecidableEq

/-- Modelled from the spec: `rules.NewCalculationRule` — a fresh rule for a
strategy name with the engine defaults (the spec leaves the default precision
and rounding mode open; 2 decimal digits and round-to-nearest are fixed here). -/
def NewCalculationRule (name : String) : CalculationRule :=
  { strategyName := name, precision := 2, roundingMode := "round", params := [] }

/-- Modelled from the spec: `CalculationRule.SetPrecision`. -/
def CalculationRule.SetPrecision (rule : CalculationRule) (p : Int) : CalculationRule :=
  { rule with precision := p }

/-- Modelled from the spec: `CalculationRule.SetRoundingMode`. -/
def CalculationRule.SetRoundingMode (rule : CalculationRule) (m : String) : CalculationRule :=
  { rule with roundingMode := m }

/-- Modelled from the spec: `CalculationRule.AddParam`. -/
def CalculationRule.AddParam (rule : CalculationRule) (k : String) (v : GoValue) : CalculationRule :=
  { rule with params := rule.params ++ [(k, v)] }

/-- Function `createCalculationRule` — builds the engine rule from a request: strategy
name via the formula-type mapping, then precision, rounding mode and extra
parameters when set. -/
def createCalculationRule (request : CalculationRequest) : Except String CalculationRule :=
  let strategyName := mapFormulaTypeToStrategy request.formulaType
  let rule := NewCalculationRule strategyName
  let rule := if request.precision > 0 then rule.SetPrecision request.precision else rule
  let rule := if request.roundingMode ≠ "" then rule.SetRoundingMode request.roundingMode else rule
  let rule := request.parameters.foldl (fun r kv => r.AddParam kv.1 kv.2) rule
  .ok rule

/-- Sum of a list of rationals (Go loop accumulation). -/
def listSum (l : List ℚ) : ℚ := l.foldl (fun a b => a + b) 0

/-- Association-list lookup for `Params`. -/
def lookupParam (params : Params) (key : String) : Option GoValue :=
  match params with
  | [] => none
  | kv :: rest => if kv.1 = key then some kv.2 else lookupParam rest key

/-- Modelled from the spec: the formula strategy set (§4.1) — each named
strategy maps operands plus parameters to a raw scalar or an error; the Go
`strategies` package is absent from the repository snapshot. -/
def applyStrategy (name : String) (operands : List ℚ) (params : Params) : Except String ℚ :=
  match name with
  | "option" =>
    match operands with
    | [x] => .ok x
    | _ => .error "option strategy requires exactly one operand"
  | "sum" => .ok (listSum operands)
  | "average" =>
    match operands with
    | [] => .error "average strategy requires at least one operand"
    | _ => .ok (listSum operands / (operands.length : ℚ))
  | "max" =>
    match operands with
    | [] => .error "max strategy requires at least one operand"
    | x :: xs => .ok (xs.foldl max x)
  | "min" =>
    match operands with
    | [] => .error "min strategy requires at least one operand"
    | x :: xs => .ok (xs.foldl min x)
  | "weighted" =>
    match lookupParam params "weights" with
    | some (GoValue.floats ws) =>
      if ws.length = operands.length then
        .ok (listSum (List.zipWith (fun a b => a * b) operands ws))
      else .error "weights length does not match operands length"
    | _ => .error "weighted strategy requires a weights parameter"
  | _ => .error ("unknown strategy: " ++ name)

/-- Modelled from the spec: precision/rounding applied uniformly after
strategy execution (§4.1) — round to `precision` decimal digits with the
requested mode (round = nearest, floor = toward −∞, ceil = toward +∞,
truncate = toward zero). -/
def roundToPrecision (mode : String) (precision : Int) (x : ℚ) : ℚ :=
  let f : ℚ := (10 : ℚ) ^ precision.toNat
  match mode with
  | "floor" => ((⌊x * f⌋ : ℤ) : ℚ) / f
  | "ceil" => ((⌈x * f⌉ : ℤ) : ℚ) / f
  | "truncate" => (((if 0 ≤ x then ⌊x * f⌋ else ⌈x * f⌉) : ℤ) : ℚ) / f
  | _ => ((round (x * f) : ℤ) : ℚ) / f

/-- Modelled from the spec: `CalculationEngine.Calculate` (§4.2) — resolves
the named strategy, applies it, then precision/rounding; details record the
strategy name, the raw pre-rounding value and the operand count. -/
def engineCalculate (rule : CalculationRule) (operands : List ℚ) :
    Except String (ℚ × StrategyDetails) :=
  match applyStrategy rule.strategyName operands rule.params with
  | .error e => .error e
  | .ok raw =>
    .ok (roundToPrecision rule.roundingMode rule.precision raw,
         { strategyName := rule.strategyName, rawValue := raw,
           operandCount := operands.length })

/-- Modelled from the spec: the adapters' shared single `Calculate` (§4.3) —
a nil request is the only Go-level error; rule building and engine errors are
captured in the result's error field. `now` stands for the wall clock and
feeds only the duration field. -/
def portCalculate (now : Int) (request : Option CalculationRequest) :
    Except String CalculationResult :=
  match request with
  | none => .error "计算请求不能为空"
  | some req =>
    match createCalculationRule req with
    | .error e =>
      .ok { id := req.id, name := req.name, value := 0, details := none,
            error := e, duration := now }
    | .ok rule =>
      match engineCalculate rule req.operands with
      | .error e =>
        .ok { id := req.id, name := req.name, value := 0, details := none,
              error := e, duration := now }
      | .ok vd =>
        .ok { id := req.id, name := req.name, value := vd.1, details := some vd.2,
              error := "", duration := now }

/-! ## Serial adapter -/

/-- The error wrapper of `SerialCalculationAdapter.CalculateBatch` for a hard
failure at task index `i`. -/
def serialWrapErr (i : Nat) (e : String) : String :=
  "串行批量计算失败，任务 " ++ toString i ++ ": " ++ e

/-- The request loop of `SerialCalculationAdapter.CalculateBatch`: requests in
input order, fail-fast on the first hard `Calculate` error, wrapped with its
index. -/
def serialBatchLoop (now : Int) : Nat → List (Option CalculationRequest) →
    Except String (List CalculationResult)
  | _, [] => .ok []
  | i, r :: rs =>
    match portCalculate now r with
    | .error e => .error (serialWrapErr i e)
    | .ok res =>
      match serialBatchLoop now (i + 1) rs with
      | .error e => .error e
      | .ok results => .ok (res :: results)

/-- Method `SerialCalculationAdapter.CalculateBatch` — empty input short-circuits to
an empty result slice; otherwise the indexed fail-fast loop. -/
def serialCalculateBatch (now : Int) (requests : List (Option CalculationRequest)) :
    Except String (List CalculationResult) :=
  if requests.isEmpty then .ok []
  else serialBatchLoop now 0 requests

/-! ## Concurrent adapter

The worker-pool half of `ConcurrentCalculationAdapter.CalculateBatch` is in
the source (workers pull (index, request) pairs and push (index, result,
error) triples); the collection half is elided there. Completion
nondeterminism is embedded as an explicit arrival order of task indices. -/

/-- The Go error of an outcome, if any. -/
def exceptErr {α : Type} : Except String α → Option String
  | .error e => some e
  | .ok _ => none

/-- The error wrapper of the concurrent batch for a hard failure at task
index `i`. -/
def concurrentWrapErr (i : Nat) (e : String) : String :=
  "并发批量计算失败，任务 " ++ toString i ++ ": " ++ e

/-- A worker's outcome for task index `i` (each worker runs the shared
`Calculate` on its pulled request). -/
def outcome (now : Int) (requests : List (Option CalculationRequest)) (i : Nat) :
    Except String CalculationResult :=
  portCalculate now (requests.getD i none)

/-- The first hard error on the result channel, scanning arrival order. -/
def firstArrivalError (now : Int) (requests : List (Option CalculationRequest)) :
    List Nat → Option (Nat × String)
  | [] => none
  | i :: rest =>
    match exceptErr (outcome now requests i) with
    | some e => some (i, e)
    | none => firstArrivalError now requests rest

/-- Unwraps a successful outcome (the default is never reached when every
outcome succeeded). -/
def resultOrDefault : Except String CalculationResult → CalculationResult
  | .ok r => r
  | .error _ => defaultCalculationResult

/-- Modelled from the spec: the result-collection half of
`ConcurrentCalculationAdapter.CalculateBatch` (§4.3), elided in the source
("// ... 详细实现") — the orchestrator drains all outcomes, returns the first
hard error of the arrival order wrapped with its index, and otherwise
reassembles results indexed by original request position. `order` is the
arrival order of worker results. -/
def concurrentCalculateBatch (now : Int) (order : List Nat)
    (requests : List (Option CalculationRequest)) :
    Except String (List CalculationResult) :=
  if requests.isEmpty then .ok []
  else
    match firstArrivalError now requests order with
    | some ie => .error (concurrentWrapErr ie.1 ie.2)
    | none => .ok (requests.map (fun r => resultOrDefault (portCalculate now r)))

/-! ## Adapter factory -/

/-- Modelled from the spec: the `SerialAdapter` constant of `AdapterType`
(the concrete representation of the enum is absent from the snapshot). -/
def SerialAdapterType : String := "serial"

/-- Modelled from the spec: the `ConcurrentAdapter` constant of `AdapterType`. -/
def ConcurrentAdapterType : String := "concurrent"

/-- The two adapter shapes `CreateCalculationPort` can return, with the
concurrent one carrying its worker-pool bound. -/
inductive CalculationPortShape where
  | serialAdapter
  | concurrentAdapter (maxConcurrency : Int)
  deriving DecidableEq

/-- Method `AdapterFactory.CreateCalculationPort` — serial for the serial type and
for any unknown type; concurrent with the first variadic argument when it is
positive, with the default of 10 otherwise. -/
def CreateCalculationPort (adapterType : String) (maxConcurrency : List Int) :
    CalculationPortShape :=
  if adapterType = SerialAdapterType then .serialAdapter
  else if adapterType = ConcurrentAdapterType then
    let concurrency : Int :=
      match maxConcurrency with
      | c :: _ => if c > 0 then c else 10
      | [] => 10
    .concurrentAdapter concurrency
  else .serialAdapter

/-- Every result field except the duration (the only clock-fed field). -/
def resultCore (r : CalculationResult) :
    String × String × ℚ × Option StrategyDetails × String :=
  (r.id, r.name, r.value, r.details, r.error)

/-- A concrete well-formed sum request used by witnesses. -/
def reqSum : CalculationRequest :=
  { id := "t1", name := "sum task", formulaType := "sum", operands := [1, 2],
    parameters := [], precision := 0, roundingMode := "" }

/-- A second concrete request used by witnesses. -/
def reqOpt : CalculationRequest :=
  { id := "t2", name := "option task", formulaType := "score", operands := [4],
    parameters := [], precision := 0, roundingMode := "" }

/-- A concrete two-request batch used by witnesses. -/
def batchTwo : List (Option CalculationRequest) := [some reqSum, some reqOpt]

/-! ## Message dispatcher and handler chain -/

/-- Structure `Message` from the message-processing module. -/
structure Message where
  id : String
  type : String
  data : List (String × GoValue)
  timestamp : Int
  source : String
  deriving DecidableEq

/-- A `Handler` implementation: its name and its `Handle` behaviour. Go
handlers affect external systems through their receivers; the embedding
threads that effect state `σ` explicitly, so `Handle` maps a message and the
state to the new state plus an optional error. -/
structure Handler (σ : Type) where
  name : String
  handle : Message → σ → σ × Option String

/-- Method `HandlerChain.AddHandler` — appends to the registration list. -/
def addHandler {σ : Type} (chain : List (Handler σ)) (h : Handler σ) :
    List (Handler σ) :=
  chain ++ [h]

/-- The error wrapper of `HandlerChain.Process` for a failing handler. -/
def wrapHandlerErr (name e : String) : String :=
  "处理器 " ++ name ++ " 执行失败: " ++ e

/-- Method `HandlerChain.Process` over the snapshotted handler list: handlers run in
registration order; the first non-nil error aborts the chain immediately,
wrapped with the failing handler's name, with no compensation of the effects
already committed. -/
def processChain {σ : Type} : List (Handler σ) → Message → σ → σ × Option String
  | [], _, s => (s, none)
  | h :: rest, msg, s =>
    match h.handle msg s with
    | (s', none) => processChain rest msg s'
    | (s', some e) => (s', some (wrapHandlerErr h.name e))

/-! ## Validation -/

/-- Structure `Answer` from the answer-sheet domain. -/
structure Answer where
  questionCode : String
  questionType : String
  score : Nat
  value : GoValue
  deriving DecidableEq

/-- Method `Validator.ValidateAnswers` — answers in list order, fail-fast on the
first answer-level error. `validateAnswer` stands for the member call
`v.ValidateAnswer` whose body is elided in the source. -/
def ValidateAnswers (validateAnswer : Answer → Option String) :
    List Answer → Option String
  | [] => none
  | a :: rest =>
    match validateAnswer a with
    | some e => some e
    | none => ValidateAnswers validateAnswer rest

/-- Structure `ValidationRule` from the questionnaire domain (rule type and target
value, both carried as strings). -/
structure ValidationRule where
  ruleType : String
  targetValue : String
  deriving DecidableEq

/-- Modelled from the spec: `validateRequired` (§4.4), whose body is elided
in the source — fails exactly on nil, the zero value, the empty string, or an
empty collection. -/
def validateRequired (value : GoValue) : Option String :=
  match value with
  | .nil => some "字段不能为空"
  | .str "" => some "字段不能为空"
  | .num q => if q = 0 then some "字段不能为空" else none
  | .floats [] => some "字段不能为空"
  | .strs [] => some "字段不能为空"
  | _ => none

/-- Modelled from the spec: the length of a string-like or collection-like
value (§4.4); other values have no length. -/
def goValueLength : GoValue → Option Nat
  | .str s => some s.length
  | .strs l => some l.length
  | .floats l => some l.length
  | _ => none

/-- Modelled from the spec: the numeric reading of a value (§4.4), parsed
from a string when necessary. -/
def goValueNumber : GoValue → Option ℚ
  | .num q => some q
  | .str s => (s.toInt?).map fun i => (i : ℚ)
  | _ => none

/-- Modelled from the spec: `validateMinLength` (§4.4). -/
def validateMinLength (target : String) (value : GoValue) : Option String :=
  match target.toNat?, goValueLength value with
  | some n, some len => if len < n then some ("长度不能小于 " ++ target) else none
  | _, _ => some "min_length 规则不适用"

/-- Modelled from the spec: `validateMaxLength` (§4.4). -/
def validateMaxLength (target : String) (value : GoValue) : Option String :=
  match target.toNat?, goValueLength value with
  | some n, some len => if n < len then some ("长度不能大于 " ++ target) else none
  | _, _ => some "max_length 规则不适用"

/-- Modelled from the spec: `validateMinValue` (§4.4). -/
def validateMinValue (target : String) (value : GoValue) : Option String :=
  match target.toInt?, goValueNumber value with
  | some t, some q => if q < (t : ℚ) then some ("数值不能小于 " ++ target) else none
  | _, _ => some "min_value 规则不适用"

/-- Modelled from the spec: `validateMaxValue` (§4.4). -/
def validateMaxValue (target : String) (value : GoValue) : Option String :=
  match target.toInt?, goValueNumber value with
  | some t, some q => if (t : ℚ) < q then some ("数值不能大于 " ++ target) else none
  | _, _ => some "max_value 规则不适用"

/-- Method `ValidationAbility.validateRule` — dispatch on the rule type; an unknown
rule type is itself an error. -/
def validateRule (rule : ValidationRule) (value : GoValue) : Option String :=
  match rule.ruleType with
  | "required" => validateRequired value
  | "min_length" => validateMinLength rule.targetValue value
  | "max_length" => validateMaxLength rule.targetValue value
  | "min_value" => validateMinValue rule.targetValue value
  | "max_value" => validateMaxValue rule.targetValue value
  | _ => some ("unknown validation rule type: " ++ rule.ruleType)

/-- Method `ValidationAbility.Validate` — declared rules in declaration order,
returning the first failing rule's error. -/
def Validate (rules : List ValidationRule) (value : GoValue) : Option String :=
  match rules with
  | [] => none
  | r :: rest =>
    match validateRule r value with
    | some e => some e
    | none => Validate rest value

/-! ## Concurrent validation service -/

/-- The aggregate error of `ConcurrentService.validateConcurrently`. -/
def concurrentAggErr (n : Nat) (first : String) : String :=
  "并发验证失败，错误数量: " ++ toString n ++ ", 首个错误: " ++ first

/-- Method `ConcurrentService.validateConcurrently` — every answer is validated in
its own goroutine; errors flow into a buffered channel sized to the answer
count; once a WaitGroup signals all workers done the channel is drained, and
a non-empty error list fails with the aggregate of the count and the first
collected error. `validateSingleAnswer` stands for the member call whose body
is elided in the source; `order` is the goroutine completion order as a list
of answer indices. -/
def validateConcurrently (validateSingleAnswer : Answer → Option String)
    (order : List Nat) (answers : List Answer) : Option String :=
  match order.filterMap (fun i => (answers[i]?).bind validateSingleAnswer) with
  | [] => none
  | e :: es => some (concurrentAggErr (es.length + 1) e)

/-! ## Questionnaire question service -/

/-- Interface `question.Question`, reduced to the interface surface `AddQuestion`
consults (`GetCode`), plus the base title. -/
structure Question where
  code : String
  title : String
  deriving DecidableEq

/-- The `Questionnaire` aggregate root (wrapper value objects embedded as
their underlying scalars). -/
structure Questionnaire where
  id : Nat
  code : String
  title : String
  description : String
  imgUrl : String
  version : String
  status : Int
  questions : List Question
  deriving DecidableEq

/-- Method `Questionnaire.GetQuestions`. -/
def GetQuestions (q : Questionnaire) : List Question := q.questions

/-- Method `QuestionService.AddQuestion` — rejects a nil question and a duplicate
question code, otherwise appends; the error cases leave the questionnaire
untouched. -/
def AddQuestion (q : Questionnaire) (newQuestion : Option Question) :
    Questionnaire × Option String :=
  match newQuestion with
  | none => (q, some "问题对象不能为空")
  | some nq =>
    if (GetQuestions q).any (fun existing => existing.code = nq.code) then
      (q, some "code 重复，不能添加")
    else
      ({ q with questions := q.questions ++ [nq] }, none)

/-- A sequence of `AddQuestion` calls, keeping the questionnaire of each
step. -/
def addQuestions (q : Questionnaire) (ns : List (Option Question)) : Questionnaire :=
  ns.foldl (fun acc n => (AddQuestion acc n).1) q

/-! ## Concrete fixtures used by witnesses -/

/-- Witness fixture: the answersheet-saved message. -/
def msgW : Message :=
  { id := "m1", type := "answersheet_saved",
    data := [("answersheet_id", GoValue.str "a1")], timestamp := 0,
    source := "collection-server" }

/-- Witness fixture: a handler that records its run and succeeds. -/
def calcScoreHandlerW : Handler (List String) :=
  { name := "calc_answersheet_score", handle := fun _ s => (s ++ ["calc"], none) }

/-- Witness fixture: a handler that records its run and then errors. -/
def genReportHandlerW : Handler (List String) :=
  { name := "generate_interpret_report",
    handle := fun _ s => (s ++ ["report"], some "boom") }

/-- Witness fixture: a handler that must never run. -/
def auditHandlerW : Handler (List String) :=
  { name := "audit", handle := fun _ s => (s ++ ["audit"], none) }

/-- Witness fixture: a per-answer validator built from the required rule. -/
def validateAnswerW (a : Answer) : Option String :=
  Validate [{ ruleType := "required", targetValue := "" }] a.value

/-- Witness fixture: an answer that passes the required rule. -/
def ansOkW : Answer :=
  { questionCode := "q1", questionType := "text", score := 0, value := .str "hi" }

/-- Witness fixture: an unanswered answer that fails the required rule. -/
def ansBadW : Answer :=
  { questionCode := "q2", questionType := "radio", score := 0, value := .nil }

/-- Witness fixture: a later answer that must not be evaluated sequentially. -/
def ansTailW : Answer :=
  { questionCode := "q3", questionType := "text", score := 0, value := .str "x" }

/-- Witness fixture: a questionnaire holding one question. -/
def questionnaireW : Questionnaire :=
  { id := 1, code := "TEST_001", title := "测试问卷", description := "",
    imgUrl := "", version := "1.0", status := 0,
    questions := [{ code := "Q1", title := "第一题" }] }

end QScale

namespace QScale

/-- C5: `mapFormulaTypeToStrategy` maps "the_option"/"score"/"option" to
"option", "sum" to "sum", "average"/"avg" to "average", "max"/"maximum" to
"max", "min"/"minimum" to "min", "weighted"/"weighted_average" to "weighted",
and every other string falls back to "option". -/
theorem mapFormulaTypeToStrategy_spec :
    (mapFormulaTypeToStrategy "the_option" = "option" ∧
     mapFormulaTypeToStrategy "score" = "option" ∧
     mapFormulaTypeToStrategy "option" = "option" ∧
     mapFormulaTypeToStrategy "sum" = "sum" ∧
     mapFormulaTypeToStrategy "average" = "average" ∧
     mapFormulaTypeToStrategy "avg" = "average" ∧
     mapFormulaTypeToStrategy "max" = "max" ∧
     mapFormulaTypeToStrategy "maximum" = "max" ∧
     mapFormulaTypeToStrategy "min" = "min" ∧
     mapFormulaTypeToStrategy "minimum" = "min" ∧
     mapFormulaTypeToStrategy "weighted" = "weighted" ∧
     mapFormulaTypeToStrategy "weighted_average" = "weighted") ∧
    ∀ s, s ∉ recognizedFormulaTypes → mapFormulaTypeToStrategy s = "option" := by
  constructor
  · refine ⟨rfl, rfl, rfl, rfl, rfl, rfl, rfl, rfl, rfl, rfl, rfl, rfl⟩
  · intro s hs
    unfold mapFormulaTypeToStrategy
    split <;> simp_all [recognizedFormulaTypes]

/-- Witness for C5: a concrete unrecognized formula type falls back to
"option". -/
theorem mapFormulaTypeToStrategy_spec_witness :
    "median" ∉ recognizedFormulaTypes ∧ mapFormulaTypeToStrategy "median" = "option" :=
  ⟨by decide, mapFormulaTypeToStrategy_spec.2 "median" (by decide)⟩

/-- C7: both adapters map an empty request slice to an empty result slice
with no error. -/
theorem calculateBatch_empty :
    ∀ now : Int, serialCalculateBatch now [] = .ok [] ∧
      ∀ order : List Nat, concurrentCalculateBatch now order [] = .ok [] := by
  intro now
  exact ⟨rfl, fun _ => rfl⟩

/-- C8: calculation is deterministic — the shared `Calculate` read at two
different clock instants agrees on every field but the duration (id, name,
value, details, error), for every request. -/
theorem calculate_deterministic :
    ∀ (now₁ now₂ : Int) (req : Option CalculationRequest),
      (portCalculate now₁ req).map resultCore = (portCalculate now₂ req).map resultCore := by
  intro now₁ now₂ req
  cases req with
  | none => rfl
  | some r =>
    simp only [portCalculate, createCalculationRule]
    cases h : engineCalculate
        ((r.parameters.foldl (fun rl kv => rl.AddParam kv.1 kv.2)
          (if r.roundingMode ≠ "" then
            (if r.precision > 0 then (NewCalculationRule (mapFormulaTypeToStrategy r.formulaType)).SetPrecision r.precision
             else NewCalculationRule (mapFormulaTypeToStrategy r.formulaType)).SetRoundingMode r.roundingMode
           else
            (if r.precision > 0 then (NewCalculationRule (mapFormulaTypeToStrategy r.formulaType)).SetPrecision r.precision
             else NewCalculationRule (mapFormulaTypeToStrategy r.formulaType)))))
        r.operands <;>
      simp [h, resultCore, Except.map]

/-- C9: the factory returns the serial adapter for the serial type and for
unknown types; the concurrent adapter with the supplied bound when the first
optional argument is positive, and with the default bound 10 when the
argument is omitted or not positive. -/
theorem createCalculationPort_spec :
    (∀ args, CreateCalculationPort SerialAdapterType args = .serialAdapter) ∧
    (∀ (c : Int) rest, 0 < c →
      CreateCalculationPort ConcurrentAdapterType (c :: rest) = .concurrentAdapter c) ∧
    (CreateCalculationPort ConcurrentAdapterType [] = .concurrentAdapter 10) ∧
    (∀ (c : Int) rest, c ≤ 0 →
      CreateCalculationPort ConcurrentAdapterType (c :: rest) = .concurrentAdapter 10) ∧
    (∀ t args, t ≠ SerialAdapterType → t ≠ ConcurrentAdapterType →
      CreateCalculationPort t args = .serialAdapter) := by
  refine ⟨fun args => rfl, ?_, rfl, ?_, ?_⟩
  · intro c rest hc
    simp [CreateCalculationPort, SerialAdapterType, ConcurrentAdapterType, hc]
  · intro c rest hc
    simp [CreateCalculationPort, SerialAdapterType, ConcurrentAdapterType, not_lt.mpr hc]
  · intro t args h₁ h₂
    simp [CreateCalculationPort, h₁, h₂]

/-- Witness for C9: a positive supplied bound is kept; a non-positive one and
an unknown adapter type take the documented defaults. -/
theorem createCalculationPort_spec_witness :
    ((0 : Int) < 3 ∧
      CreateCalculationPort ConcurrentAdapterType [3] = .concurrentAdapter 3) ∧
    ((-2 : Int) ≤ 0 ∧
      CreateCalculationPort ConcurrentAdapterType [-2, 7] = .concurrentAdapter 10) ∧
    ("mystery" ≠ SerialAdapterType ∧ "mystery" ≠ ConcurrentAdapterType ∧
      CreateCalculationPort "mystery" [4] = .serialAdapter) :=
  ⟨⟨by decide, createCalculationPort_spec.2.1 3 [] (by decide)⟩,
   ⟨by decide, createCalculationPort_spec.2.2.2.1 (-2) [7] (by decide)⟩,
   ⟨by decide, by decide,
    createCalculationPort_spec.2.2.2.2 "mystery" [4] (by decide) (by decide)⟩⟩

/-- The serial loop hits the first hard error: if every request before index
`i` computes cleanly and the one at `i` hard-fails, the loop started at base
index `k` fails wrapped with `k + i`. -/
lemma serialBatchLoop_error_at (now : Int) :
    ∀ (B : List (Option CalculationRequest)) (k i : Nat) (e : String),
      i < B.length →
      (∀ j, j < i → exceptErr (portCalculate now (B.getD j none)) = none) →
      portCalculate now (B.getD i none) = .error e →
      serialBatchLoop now k B = .error (serialWrapErr (k + i) e) := by
  intro B
  induction B with
  | nil =>
    intro k i e hi
    simp at hi
  | cons r rs ih =>
    intro k i e hi hok herr
    cases i with
    | zero =>
      rw [List.getD_cons_zero] at herr
      simp only [serialBatchLoop, herr]
      rfl
    | succ i =>
      have h0 := hok 0 (Nat.succ_pos i)
      rw [List.getD_cons_zero] at h0
      cases hr : portCalculate now r with
      | error e0 => simp [exceptErr, hr] at h0
      | ok res =>
        have hrec := ih (k + 1) i e (by simpa using hi)
          (fun j hj => by
            have := hok (j + 1) (Nat.succ_lt_succ hj)
            rwa [List.getD_cons_succ] at this)
          (by rwa [List.getD_cons_succ] at herr)
        have hk : k + 1 + i = k + (i + 1) := by omega
        simp only [serialBatchLoop, hr, hrec, hk]

/-- C6: the Serial Adapter is fail-fast — if the requests before index `i`
all compute without a hard error and the internal `Calculate` call at index
`i` returns a hard error, the whole batch call returns that error wrapped
with index `i` and no result slice. -/
theorem serialCalculateBatch_fail_fast :
    ∀ (now : Int) (B : List (Option CalculationRequest)) (i : Nat) (e : String),
      i < B.length →
      (∀ j, j < i → exceptErr (portCalculate now (B.getD j none)) = none) →
      portCalculate now (B.getD i none) = .error e →
      serialCalculateBatch now B = .error (serialWrapErr i e) := by
  intro now B i e hi hok herr
  have hne : B.isEmpty = false := by
    cases B with
    | nil => simp at hi
    | cons r rs => rfl
  have := serialBatchLoop_error_at now B 0 i e hi hok herr
  simpa [serialCalculateBatch, hne] using this

/-- Witness for C6: a two-request batch whose second entry is a nil pointer
fails with the error wrapped at index 1. -/
theorem serialCalculateBatch_fail_fast_witness :
    (1 < ([some reqSum, none] : List (Option CalculationRequest)).length ∧
     (∀ j, j < 1 →
       exceptErr (portCalculate 0 (([some reqSum, none] :
         List (Option CalculationRequest)).getD j none)) = none) ∧
     portCalculate 0 (([some reqSum, none] :
       List (Option CalculationRequest)).getD 1 none) = .error "计算请求不能为空") ∧
    serialCalculateBatch 0 [some reqSum, none] = .error (serialWrapErr 1 "计算请求不能为空") :=
  ⟨⟨by decide, by decide, by rfl⟩,
   serialCalculateBatch_fail_fast 0 [some reqSum, none] 1 "计算请求不能为空"
     (by decide) (by decide) (by rfl)⟩

/-- An outcome has no Go error exactly when it is a success. -/
lemma exceptErr_eq_none_iff {α : Type} (o : Except String α) :
    exceptErr o = none ↔ ∃ a, o = .ok a := by
  cases o <;> simp [exceptErr]

/-- When every request computes cleanly, the serial loop succeeds with the
per-request results in input order. -/
lemma serialBatchLoop_ok_of_all (now : Int) :
    ∀ (B : List (Option CalculationRequest)) (k : Nat),
      (∀ r ∈ B, exceptErr (portCalculate now r) = none) →
      serialBatchLoop now k B =
        .ok (B.map (fun r => resultOrDefault (portCalculate now r))) := by
  intro B
  induction B with
  | nil => intro k _; rfl
  | cons r rs ih =>
    intro k h
    have h0 := h r (List.mem_cons_self r rs)
    cases hr : portCalculate now r with
    | error e => simp [exceptErr, hr] at h0
    | ok res =>
      have hrec := ih (k + 1) (fun x hx => h x (List.mem_cons_of_mem r hx))
      simp [serialBatchLoop, hr, hrec, resultOrDefault]

/-- A successful serial loop means every request computed cleanly. -/
lemma serialBatchLoop_all_of_ok (now : Int) :
    ∀ (B : List (Option CalculationRequest)) (k : Nat) (rs : List CalculationResult),
      serialBatchLoop now k B = .ok rs →
      ∀ r ∈ B, exceptErr (portCalculate now r) = none := by
  intro B
  induction B with
  | nil =>
    intro k rs _ r hr
    simp at hr
  | cons r0 rs0 ih =>
    intro k rs h r hr
    cases hp : portCalculate now r0 with
    | error e => simp [serialBatchLoop, hp] at h
    | ok res =>
      rcases List.mem_cons.mp hr with rfl | hmem
      · simp [exceptErr, hp]
      · simp only [serialBatchLoop, hp] at h
        cases hq : serialBatchLoop now (k + 1) rs0 with
        | error e => rw [hq] at h; simp at h
        | ok rs1 => exact ih (k + 1) rs1 hq r hmem

/-- The result channel scan reports no error exactly when every scanned task
index computed cleanly. -/
lemma firstArrivalError_eq_none_iff (now : Int)
    (requests : List (Option CalculationRequest)) :
    ∀ order : List Nat, firstArrivalError now requests order = none ↔
      ∀ i ∈ order, exceptErr (outcome now requests i) = none := by
  intro order
  induction order with
  | nil => simp [firstArrivalError]
  | cons i rest ih =>
    cases hx : exceptErr (outcome now requests i) with
    | some e => simp [firstArrivalError, hx]
    | none => simp [firstArrivalError, hx, ih]

/-- Clean computation of every index below the length is clean computation of
every list element. -/
lemma all_getD_iff_all_mem (now : Int) (B : List (Option CalculationRequest)) :
    (∀ i, i < B.length → exceptErr (portCalculate now (B.getD i none)) = none) ↔
      ∀ r ∈ B, exceptErr (portCalculate now r) = none := by
  constructor
  · intro h r hr
    rcases List.mem_iff_getElem.mp hr with ⟨i, hi, rfl⟩
    have := h i hi
    rwa [List.getD_eq_getElem _ _ hi] at this
  · intro h i hi
    rw [List.getD_eq_getElem _ _ hi]
    exact h _ (List.getElem_mem hi)

/-- A successful shared `Calculate` echoes the request id. -/
lemma portCalculate_id (now : Int) (req : CalculationRequest) (r : CalculationResult) :
    portCalculate now (some req) = .ok r → r.id = req.id := by
  intro h
  simp only [portCalculate, createCalculationRule] at h
  split at h <;> simp_all <;> subst h <;> rfl

/-- C1: with any arrival order that is a permutation of the task indices, the
Concurrent Adapter batch succeeds exactly when the Serial Adapter batch does,
with the identical result slice; a successful slice has the batch's length
and its i-th element is the result of request B[i], echoing B[i]'s id. -/
theorem concurrentCalculateBatch_order_preservation :
    ∀ (now : Int) (order : List Nat) (B : List (Option CalculationRequest)),
      order.Perm (List.range B.length) →
      (∀ rs, concurrentCalculateBatch now order B = .ok rs ↔
        serialCalculateBatch now B = .ok rs) ∧
      (∀ rs, concurrentCalculateBatch now order B = .ok rs →
        rs.length = B.length ∧
        ∀ i, i < B.length →
          portCalculate now (B.getD i none) = .ok (rs.getD i defaultCalculationResult) ∧
          ∀ req, B.getD i none = some req →
            (rs.getD i defaultCalculationResult).id = req.id) := by
  intro now order B hperm
  have hmem : ∀ i, i ∈ order ↔ i < B.length := by
    intro i
    rw [hperm.mem_iff, List.mem_range]
  have hall_of_conc : ∀ rs, concurrentCalculateBatch now order B = .ok rs →
      ∀ r ∈ B, exceptErr (portCalculate now r) = none := by
    intro rs hc
    by_cases hemp : B.isEmpty
    · rw [List.isEmpty_iff] at hemp
      subst hemp
      intro r hr
      simp at hr
    · simp only [concurrentCalculateBatch, hemp] at hc
      cases hfe : firstArrivalError now B order with
      | some ie => simp [hfe] at hc
      | none =>
        have hforall := (firstArrivalError_eq_none_iff now B order).mp hfe
        exact (all_getD_iff_all_mem now B).mp fun i hi => hforall i ((hmem i).mpr hi)
  have hserial_of_all : (∀ r ∈ B, exceptErr (portCalculate now r) = none) →
      serialCalculateBatch now B =
        .ok (B.map fun r => resultOrDefault (portCalculate now r)) := by
    intro hall
    cases hB : B with
    | nil => rfl
    | cons b bs =>
      have hloop := serialBatchLoop_ok_of_all now (b :: bs) 0 (hB ▸ hall)
      simpa [serialCalculateBatch] using hloop
  have hconc_of_all : (∀ r ∈ B, exceptErr (portCalculate now r) = none) →
      concurrentCalculateBatch now order B =
        .ok (B.map fun r => resultOrDefault (portCalculate now r)) := by
    intro hall
    by_cases hemp : B.isEmpty
    · rw [List.isEmpty_iff] at hemp
      subst hemp
      rfl
    · have hnone : firstArrivalError now B order = none :=
        (firstArrivalError_eq_none_iff now B order).mpr fun i hi =>
          (all_getD_iff_all_mem now B).mpr hall i ((hmem i).mp hi)
      simp [concurrentCalculateBatch, hemp, hnone]
  have hall_of_serial : ∀ rs, serialCalculateBatch now B = .ok rs →
      ∀ r ∈ B, exceptErr (portCalculate now r) = none := by
    intro rs hs r hr
    cases hB : B with
    | nil => simp [hB] at hr
    | cons b bs =>
      subst hB
      simp only [serialCalculateBatch, List.isEmpty_cons] at hs
      simp only [Bool.false_eq_true, if_false] at hs
      exact serialBatchLoop_all_of_ok now (b :: bs) 0 rs hs r hr
  refine ⟨?_, ?_⟩
  · intro rs
    constructor
    · intro hc
      have hall := hall_of_conc rs hc
      rw [hconc_of_all hall] at hc
      rw [hserial_of_all hall]
      exact hc
    · intro hs
      have hall := hall_of_serial rs hs
      rw [hserial_of_all hall] at hs
      rw [hconc_of_all hall]
      exact hs
  · intro rs hc
    have hall := hall_of_conc rs hc
    rw [hconc_of_all hall] at hc
    have hrs : rs = B.map fun r => resultOrDefault (portCalculate now r) :=
      (Except.ok.inj hc).symm
    subst hrs
    refine ⟨by simp, ?_⟩
    intro i hi
    have hok := (all_getD_iff_all_mem now B).mpr hall i hi
    rcases (exceptErr_eq_none_iff _).mp hok with ⟨res, hres⟩
    have hgetD : (B.map fun r => resultOrDefault (portCalculate now r)).getD i
        defaultCalculationResult = resultOrDefault (portCalculate now (B.getD i none)) := by
      rw [List.getD_eq_getElem _ _ (by simpa using hi), List.getElem_map,
        List.getD_eq_getElem _ _ hi]
    refine ⟨?_, ?_⟩
    · rw [hgetD, hres]
      rfl
    · intro req hreq
      rw [hgetD, hres]
      have hsome : portCalculate now (some req) = .ok res := by
        rw [← hreq]
        exact hres
      simpa [resultOrDefault] using portCalculate_id now req res hsome

/-- Witness for C1: a two-request batch under the reversed arrival order
[1, 0]. -/
theorem concurrentCalculateBatch_order_preservation_witness :
    ([1, 0] : List Nat).Perm (List.range batchTwo.length) ∧
    ((∀ rs, concurrentCalculateBatch 0 [1, 0] batchTwo = .ok rs ↔
        serialCalculateBatch 0 batchTwo = .ok rs) ∧
      (∀ rs, concurrentCalculateBatch 0 [1, 0] batchTwo = .ok rs →
        rs.length = batchTwo.length ∧
        ∀ i, i < batchTwo.length →
          portCalculate 0 (batchTwo.getD i none) = .ok (rs.getD i defaultCalculationResult) ∧
          ∀ req, batchTwo.getD i none = some req →
            (rs.getD i defaultCalculationResult).id = req.id)) :=
  ⟨by decide, concurrentCalculateBatch_order_preservation 0 [1, 0] batchTwo (by decide)⟩

/-- C4: if the handlers before position k all succeed, reaching state s₁, and
handler k fails from s₁ with error e after committing its own effects into
s₂, then `Process` on the whole chain returns exactly s₂ with e wrapped with
handler k's name — the handlers after k are never invoked (the conclusion
holds for every suffix) and the committed effects are not rolled back. -/
theorem handlerChain_abort {σ : Type} :
    ∀ (pre : List (Handler σ)) (hk : Handler σ) (post : List (Handler σ))
      (msg : Message) (s s₁ s₂ : σ) (e : String),
      processChain pre msg s = (s₁, none) →
      hk.handle msg s₁ = (s₂, some e) →
      processChain (pre ++ hk :: post) msg s = (s₂, some (wrapHandlerErr hk.name e)) := by
  intro pre
  induction pre with
  | nil =>
    intro hk post msg s s₁ s₂ e hpre herr
    have hs : s = s₁ := congrArg Prod.fst hpre
    subst hs
    simp only [List.nil_append, processChain, herr]
  | cons h rest ih =>
    intro hk post msg s s₁ s₂ e hpre herr
    cases hh : h.handle msg s with
    | mk sh oe =>
      cases oe with
      | none =>
        simp only [processChain, hh] at hpre
        simp only [List.cons_append, processChain, hh]
        exact ih hk post msg sh s₁ s₂ e hpre herr
      | some e0 =>
        simp only [processChain, hh] at hpre
        simp at hpre

/-- Witness for C4: a three-handler chain whose second handler errors —
handler one's effect stays committed, the wrapped error of handler two is
returned, and handler three never runs. -/
theorem handlerChain_abort_witness :
    (processChain [calcScoreHandlerW] msgW ([] : List String) = (["calc"], none) ∧
     genReportHandlerW.handle msgW ["calc"] = (["calc", "report"], some "boom")) ∧
    processChain ([calcScoreHandlerW] ++ genReportHandlerW :: [auditHandlerW]) msgW []
      = (["calc", "report"],
         some (wrapHandlerErr "generate_interpret_report" "boom")) :=
  ⟨⟨rfl, rfl⟩,
   handlerChain_abort [calcScoreHandlerW] genReportHandlerW [auditHandlerW] msgW
     [] ["calc"] ["calc", "report"] "boom" rfl rfl⟩

/-- C2: sequential validation is fail-fast at both nesting levels — across an
answer list, if every answer before one failing answer passes, the list
validation returns that answer's error whatever answers follow; and within
one answer, if every declared rule before one failing rule passes, rule
validation returns that rule's error whatever rules follow. -/
theorem validation_fail_fast :
    (∀ (validateAnswer : Answer → Option String) (pre : List Answer) (a : Answer)
        (post : List Answer) (e : String),
      (∀ x ∈ pre, validateAnswer x = none) → validateAnswer a = some e →
      ValidateAnswers validateAnswer (pre ++ a :: post) = some e) ∧
    (∀ (value : GoValue) (pre : List ValidationRule) (r : ValidationRule)
        (post : List ValidationRule) (e : String),
      (∀ x ∈ pre, validateRule x value = none) → validateRule r value = some e →
      Validate (pre ++ r :: post) value = some e) := by
  constructor
  · intro f pre
    induction pre with
    | nil =>
      intro a post e _ herr
      simp only [List.nil_append, ValidateAnswers, herr]
    | cons x xs ih =>
      intro a post e hok herr
      have hx := hok x (List.mem_cons_self x xs)
      simp only [List.cons_append, ValidateAnswers, hx]
      exact ih a post e (fun y hy => hok y (List.mem_cons_of_mem x hy)) herr
  · intro value pre
    induction pre with
    | nil =>
      intro r post e _ herr
      simp only [List.nil_append, Validate, herr]
    | cons x xs ih =>
      intro r post e hok herr
      have hx := hok x (List.mem_cons_self x xs)
      simp only [List.cons_append, Validate, hx]
      exact ih r post e (fun y hy => hok y (List.mem_cons_of_mem x hy)) herr

/-- Witness for C2: an unanswered required radio at position 2 of 3 stops the
answer loop there, and a failing rule after a passing required rule stops the
rule loop there. -/
theorem validation_fail_fast_witness :
    ((∀ x ∈ [ansOkW], validateAnswerW x = none) ∧
     validateAnswerW ansBadW = some "字段不能为空" ∧
     ValidateAnswers validateAnswerW ([ansOkW] ++ ansBadW :: [ansTailW]) =
       some "字段不能为空") ∧
    ((∀ x ∈ [({ ruleType := "required", targetValue := "" } : ValidationRule)],
        validateRule x (.str "ab") = none) ∧
     validateRule { ruleType := "email", targetValue := "" } (.str "ab") =
       some "unknown validation rule type: email" ∧
     Validate ([{ ruleType := "required", targetValue := "" }] ++
         ({ ruleType := "email", targetValue := "" } : ValidationRule) ::
         [{ ruleType := "max_length", targetValue := "10" }]) (.str "ab") =
       some "unknown validation rule type: email") :=
  ⟨⟨by decide, by decide,
    validation_fail_fast.1 validateAnswerW [ansOkW] ansBadW [ansTailW]
      "字段不能为空" (by decide) (by decide)⟩,
   ⟨by decide, by decide,
    validation_fail_fast.2 (.str "ab")
      [{ ruleType := "required", targetValue := "" }]
      { ruleType := "email", targetValue := "" }
      [{ ruleType := "max_length", targetValue := "10" }]
      "unknown validation rule type: email" (by decide) (by decide)⟩⟩

/-- Scanning all indices in range order collects exactly the per-answer
errors in list order. -/
lemma filterMap_range_bind (v : Answer → Option String) :
    ∀ answers : List Answer,
      (List.range answers.length).filterMap (fun i => (answers[i]?).bind v) =
        answers.filterMap v := by
  intro answers
  induction answers with
  | nil => rfl
  | cons a l ih =>
    simp only [List.length_cons, List.range_succ_eq_map, List.filterMap_cons,
      List.filterMap_map]
    have hcomp : ((fun i => (((a :: l)[i]?).bind v)) ∘ Nat.succ) =
        fun i => ((l[i]?).bind v) := by
      funext i
      simp
    rw [hcomp, ih]
    cases hva : v a <;> simp [List.filterMap_cons, hva]

/-- C3: with any goroutine completion order that is a permutation of the
answer indices, the Concurrent Validation Service validates every answer to
completion — it returns nil exactly when no answer fails, and when n ≥ 1
answers fail it returns the single aggregate error carrying the full count n
(not just the early failures) together with one sampled first error. -/
theorem validateConcurrently_spec :
    ∀ (v : Answer → Option String) (order : List Nat) (answers : List Answer),
      order.Perm (List.range answers.length) →
      (validateConcurrently v order answers = none ↔ ∀ a ∈ answers, v a = none) ∧
      (0 < (answers.filterMap v).length →
        ∃ e, e ∈ answers.filterMap v ∧
          validateConcurrently v order answers =
            some (concurrentAggErr (answers.filterMap v).length e)) := by
  intro v order answers hperm
  have hpermFM : (order.filterMap (fun i => (answers[i]?).bind v)).Perm
      (answers.filterMap v) := by
    have h := hperm.filterMap (fun i => (answers[i]?).bind v)
    rwa [filterMap_range_bind] at h
  have hlen := hpermFM.length_eq
  constructor
  · cases hm : order.filterMap (fun i => (answers[i]?).bind v) with
    | nil =>
      have hnil : answers.filterMap v = [] := by
        rw [hm] at hlen
        exact List.length_eq_zero.mp hlen.symm
      simp only [validateConcurrently, hm]
      constructor
      · intro _
        exact fun a ha => List.filterMap_eq_nil_iff.mp hnil a ha
      · intro _
        trivial
    | cons e es =>
      simp only [validateConcurrently, hm]
      constructor
      · intro h
        simp at h
      · intro hall
        have : answers.filterMap v = [] := List.filterMap_eq_nil_iff.mpr hall
        rw [hm, this] at hlen
        simp at hlen
  · intro hpos
    cases hm : order.filterMap (fun i => (answers[i]?).bind v) with
    | nil =>
      rw [hm] at hlen
      rw [← hlen] at hpos
      simp at hpos
    | cons e es =>
      refine ⟨e, ?_, ?_⟩
      · have : e ∈ order.filterMap (fun i => (answers[i]?).bind v) := by
          rw [hm]
          exact List.mem_cons_self e es
        exact hpermFM.mem_iff.mp this
      · rw [hm] at hlen
        simp only [List.length_cons] at hlen
        simp only [validateConcurrently, hm, hlen]

/-- Witness for C3: two failing answers out of three, with a completion order
that reverses the list — the aggregate reports count 2 with one of the
collected errors. -/
theorem validateConcurrently_spec_witness :
    ([2, 1, 0] : List Nat).Perm
      (List.range ([ansBadW, ansOkW, ansBadW] : List Answer).length) ∧
    ((validateConcurrently validateAnswerW [2, 1, 0] [ansBadW, ansOkW, ansBadW] = none ↔
        ∀ a ∈ ([ansBadW, ansOkW, ansBadW] : List Answer), validateAnswerW a = none) ∧
      (0 < (([ansBadW, ansOkW, ansBadW] : List Answer).filterMap validateAnswerW).length →
        ∃ e, e ∈ ([ansBadW, ansOkW, ansBadW] : List Answer).filterMap validateAnswerW ∧
          validateConcurrently validateAnswerW [2, 1, 0] [ansBadW, ansOkW, ansBadW] =
            some (concurrentAggErr
              (([ansBadW, ansOkW, ansBadW] : List Answer).filterMap validateAnswerW).length
              e))) :=
  ⟨by decide,
   validateConcurrently_spec validateAnswerW [2, 1, 0] [ansBadW, ansOkW, ansBadW]
     (by decide)⟩

/-- A single `AddQuestion` step keeps the question codes pairwise distinct. -/
lemma addQuestion_preserves_nodup (q : Questionnaire) (n : Option Question) :
    (q.questions.map Question.code).Nodup →
    (((AddQuestion q n).1).questions.map Question.code).Nodup := by
  intro h
  cases n with
  | none => exact h
  | some nq =>
    by_cases hdup : (GetQuestions q).any (fun existing => existing.code = nq.code)
    · simpa [AddQuestion, hdup] using h
    · have hnoteq : ∀ x ∈ q.questions, ¬x.code = nq.code := by
        intro x hx hcode
        exact hdup (List.any_eq_true.mpr ⟨x, hx, by simp [hcode]⟩)
      simp only [AddQuestion, hdup, if_false, Bool.false_eq_true]
      simpa [List.nodup_append] using ⟨h, hnoteq⟩

/-- C10: `AddQuestion` errors and leaves the question list unchanged on a nil
question and on a duplicate question code; consequently pairwise-distinct
question codes are preserved by any sequence of `AddQuestion` calls. -/
theorem addQuestion_spec :
    (∀ q : Questionnaire,
      (AddQuestion q none).2.isSome ∧ (AddQuestion q none).1 = q) ∧
    (∀ (q : Questionnaire) (nq : Question),
      (∃ ex ∈ q.questions, ex.code = nq.code) →
      (AddQuestion q (some nq)).2.isSome ∧ (AddQuestion q (some nq)).1 = q) ∧
    (∀ (q : Questionnaire) (ns : List (Option Question)),
      (q.questions.map Question.code).Nodup →
      ((addQuestions q ns).questions.map Question.code).Nodup) := by
  refine ⟨fun q => ⟨rfl, rfl⟩, ?_, ?_⟩
  · intro q nq ⟨ex, hmem, hcode⟩
    have hdup : (GetQuestions q).any (fun existing => existing.code = nq.code) = true :=
      List.any_eq_true.mpr ⟨ex, hmem, by simp [hcode]⟩
    constructor <;> simp [AddQuestion, hdup]
  · intro q ns
    induction ns generalizing q with
    | nil => exact fun h => h
    | cons n rest ih =>
      intro h
      exact ih (AddQuestion q n).1 (addQuestion_preserves_nodup q n h)

/-- Witness for C10: the sample questionnaire rejects a duplicate of its only
question code, and a mixed call sequence keeps the codes pairwise distinct. -/
theorem addQuestion_spec_witness :
    ((∃ ex ∈ questionnaireW.questions,
        ex.code = ({ code := "Q1", title := "重复题" } : Question).code) ∧
      (AddQuestion questionnaireW (some { code := "Q1", title := "重复题" })).2.isSome ∧
      (AddQuestion questionnaireW (some { code := "Q1", title := "重复题" })).1 =
        questionnaireW) ∧
    ((questionnaireW.questions.map Question.code).Nodup ∧
      ((addQuestions questionnaireW
          [some { code := "Q2", title := "第二题" }, none,
           some { code := "Q1", title := "重复题" },
           some { code := "Q2", title := "再重复" }]).questions.map
        Question.code).Nodup) :=
  ⟨⟨by decide,
    addQuestion_spec.2.1 questionnaireW { code := "Q1", title := "重复题" } (by decide)⟩,
   ⟨by decide,
    addQuestion_spec.2.2 questionnaireW
      [some { code := "Q2", title := "第二题" }, none,
       some { code := "Q1", title := "重复题" },
       some { code := "Q2", title := "再重复" }] (by decide)⟩⟩

end QScale
